import Mathlib

/-!
Verification of the reference-frame kinematics core (package referenceframe,
file frame.go).

The development is a shallow embedding of the Go source: float64 values are
modelled as real numbers, the possibly-infinite limit bounds as an explicit
three-case type, Go errors as an explicit error datatype, and fallible
functions return Except or Option values.  Helpers that frame.go imports from
sibling packages of the repository (spatialmath, utils, the config records)
are not part of the source excerpt; they are modelled from the spec and each
such definition says so in its doc comment.
-/

noncomputable section

open scoped Classical

namespace RF

/-- Vector model of r3.Vector (three float64 components). -/
structure V3 where
  x : ℝ
  y : ℝ
  z : ℝ

/-- Zero vector, r3.Vector{}. -/
def v3zero : V3 := ⟨0, 0, 0⟩

/-- Scalar multiplication, r3.Vector.Mul. -/
def V3.mul (v : V3) (m : ℝ) : V3 := ⟨m * v.x, m * v.y, m * v.z⟩

/-- Squared norm, r3.Vector.Norm2. -/
def V3.norm2 (v : V3) : ℝ := v.x * v.x + v.y * v.y + v.z * v.z

/-- Euclidean norm, r3.Vector.Norm. -/
def V3.norm (v : V3) : ℝ := Real.sqrt v.norm2

/-- Normalisation, r3.Vector.Normalize: returns a unit vector in the same
direction, and the zero vector when the input has zero norm. -/
def V3.normalize (v : V3) : V3 :=
  if v.norm2 = 0 then ⟨0, 0, 0⟩ else v.mul (1 / Real.sqrt v.norm2)

/-- Modelled from the spec: spatialmath.R3VectorAlmostEqual (not in the source
excerpt) compares two vectors componentwise within epsilon. -/
def r3VectorAlmostEqual (a b : V3) (eps : ℝ) : Prop :=
  |a.x - b.x| < eps ∧ |a.y - b.y| < eps ∧ |a.z - b.z| < eps

/-- Float64 limit bound: finite real, or one of the two IEEE infinities.
NaN never arises for the operations modelled here; where the Go source would
produce a NaN the definitions note it. -/
inductive FloatB where
  | ninf : FloatB
  | fin (x : ℝ) : FloatB
  | pinf : FloatB

/-- Comparison x < b of a real input against a possibly-infinite bound. -/
def realLtB (x : ℝ) : FloatB → Prop
  | .ninf => False
  | .fin m => x < m
  | .pinf => True

/-- Comparison b < x of a possibly-infinite bound against a real input. -/
def bLtReal : FloatB → ℝ → Prop
  | .ninf, _ => True
  | .fin m, x => m < x
  | .pinf, _ => False

/-- Modelled from the spec: utils.Float64AlmostEqual (not in the source
excerpt) holds when |a - b| < eps.  With an infinite operand the Go
subtraction yields plus/minus infinity or NaN and the comparison is false, so
the predicate holds only for finite operands. -/
def float64AlmostEqual : FloatB → FloatB → ℝ → Prop
  | .fin a, .fin b, eps => |a - b| < eps
  | _, _, _ => False

/-- Modelled from the spec: utils.RadToDeg multiplies by 180/pi; an infinite
operand stays infinite. -/
def radToDeg : FloatB → FloatB
  | .ninf => .ninf
  | .fin x => .fin (x * 180 / Real.pi)
  | .pinf => .pinf

/-- Modelled from the spec: utils.DegToRad multiplies by pi/180; an infinite
operand stays infinite. -/
def degToRad : FloatB → FloatB
  | .ninf => .ninf
  | .fin x => .fin (x * Real.pi / 180)
  | .pinf => .pinf

/-- Limit represents the limits of motion, a min and a max bound. -/
structure Limit where
  min : FloatB
  max : FloatB

/-- Default limit used for out-of-range list indexing in the model (the Go
source only indexes limits it has bounds-checked, or panics). -/
def limDefault : Limit := ⟨.fin 0, .fin 0⟩

/-- Input is a scalar degree-of-freedom value. -/
structure Input where
  value : ℝ

/-- Default input used for out-of-range list indexing in the model (the Go
source only indexes inputs after its length check, or panics). -/
def inputDefault : Input := ⟨0⟩

/-- Value x is outside the closed interval given by the limit, the condition
inputs[i].Value < Min || inputs[i].Value > Max of validInputs. -/
def outOfRange (lim : Limit) (x : ℝ) : Prop :=
  realLtB x lim.min ∨ bLtReal lim.max x

/-- The predicate limitsAlmostEqual of the source: equal lengths and both
bounds of every pair within 1e-5. -/
def limitsAlmostEqual (a b : List Limit) : Prop :=
  a.length = b.length ∧
  ∀ i, i < a.length →
    float64AlmostEqual (a.getD i limDefault).min (b.getD i limDefault).min 1e-5 ∧
    float64AlmostEqual (a.getD i limDefault).max (b.getD i limDefault).max 1e-5

/-- Orientation value.  Modelled from the spec: spatialmath orientations (not
in the source excerpt) have several interconvertible representations; the two
needed by frame.go are the zero orientation and an axis-angle value. -/
inductive Orient where
  | ident : Orient
  | r4aa (theta ax ay az : ℝ) : Orient

/-- Modelled from the spec: orientations are compared by converting both to
the canonical quaternion and measuring angular distance within a tolerance.
On this representation the comparison is componentwise within 1e-5; the only
property the development uses is that identical orientations compare equal. -/
def orientAlmostEqual : Orient → Orient → Prop
  | .ident, .ident => True
  | .r4aa t ax ay az, .r4aa u bx by_ bz =>
      |t - u| < 1e-5 ∧ |ax - bx| < 1e-5 ∧ |ay - by_| < 1e-5 ∧ |az - bz| < 1e-5
  | _, _ => False

/-- Pose model of spatialmath.Pose: a translation point and an orientation. -/
structure Pose where
  point : V3
  orient : Orient

/-- Modelled from the spec: spatialmath.NewZeroPose, no translation or
orientation change. -/
def newZeroPose : Pose := ⟨v3zero, .ident⟩

/-- Modelled from the spec: spatialmath.NewPoseFromPoint, translation only,
zero orientation. -/
def newPoseFromPoint (p : V3) : Pose := ⟨p, .ident⟩

/-- Axis-angle model of spatialmath.R4AA. -/
structure R4AA where
  theta : ℝ
  rx : ℝ
  ry : ℝ
  rz : ℝ

/-- Modelled from the spec: spatialmath.R4AA.Normalize scales the axis
components by the reciprocal of their norm (the angle is untouched).  For the
zero axis the Go division produces NaN components; in the real-number model
division by zero yields zero instead, and theorems about normalised axes carry
a nonzero-axis hypothesis. -/
def R4AA.normalize (a : R4AA) : R4AA :=
  ⟨a.theta,
   a.rx / Real.sqrt (a.rx * a.rx + a.ry * a.ry + a.rz * a.rz),
   a.ry / Real.sqrt (a.rx * a.rx + a.ry * a.ry + a.rz * a.rz),
   a.rz / Real.sqrt (a.rx * a.rx + a.ry * a.ry + a.rz * a.rz)⟩

/-- Modelled from the spec: spatialmath.NewPoseFromOrientation, zero point and
the given orientation. -/
def newPoseFromR4AA (a : R4AA) : Pose := ⟨v3zero, .r4aa a.theta a.rx a.ry a.rz⟩

/-- Modelled from the spec: poses are compared with vector epsilon 1e-8 on the
translation and the orientation comparison on the rotation
(spatialmath.PoseAlmostEqual is not in the source excerpt). -/
def poseAlmostEqual (a b : Pose) : Prop :=
  r3VectorAlmostEqual a.point b.point 1e-8 ∧ orientAlmostEqual a.orient b.orient

/-- Modelled from the spec: spatialmath.Geometry (not in the source excerpt)
is a labelled value-semantic primitive; Transform returns a new geometry at
the composed pose with the label preserved, SetLabel relabels.  The free
model below records exactly those operations. -/
inductive Geometry where
  | prim (label : String) : Geometry
  | moved (g : Geometry) (p : Pose) : Geometry
  | labeled (g : Geometry) (l : String) : Geometry

/-- Label of a geometry; Transform preserves it, SetLabel overrides it. -/
def Geometry.label : Geometry → String
  | .prim l => l
  | .moved g _ => g.label
  | .labeled _ l => l

/-- Geometry.Transform: a new geometry at the composed pose. -/
def Geometry.transform (g : Geometry) (p : Pose) : Geometry := .moved g p

/-- Geometry.SetLabel. -/
def Geometry.setLabel (g : Geometry) (l : String) : Geometry := .labeled g l

/-- GeometriesInFrame: geometries expressed in the frame with the given name.
Modelled from the spec (the record is defined outside the source excerpt);
NewGeometriesInFrame with a nil slice is the empty list. -/
structure GeometriesInFrame where
  frame : String
  geometries : List Geometry

/-- Error model for the package: each case is one distinct error the source
can produce.  Messages are modelled at the level of which tagged kind the
error is; containsOOBErrString below models the substring test
strings.Contains(err.Error(), OOBErrString). -/
inductive FrameErr where
  | incorrectInputLength (got expected : Nat) : FrameErr
  | oob : FrameErr
  | nilPose : FrameErr
  | zeroTranslationAxis : FrameErr
  | wrongMobileDim (got : Nat) : FrameErr
  | geometriesNotImplemented : FrameErr
  | marshalNotImplemented : FrameErr
  | highDOF : FrameErr

/-- Substring test for OOBErrString: only the out-of-bounds error message is
built from the constant OOBErrString, the other error messages of the package
do not contain it. -/
def containsOOBErrString : FrameErr → Prop
  | .oob => True
  | _ => False

/-- Data common to all frames: a name and per-DoF limits (struct baseFrame). -/
structure BaseFrame where
  name : String
  limits : List Limit

/-- The predicate baseFrame.AlmostEquals: equal names and almost equal
limits. -/
def baseAlmostEquals (a b : BaseFrame) : Prop :=
  a.name = b.name ∧ limitsAlmostEqual a.limits b.limits

/-- Input validation, baseFrame.validInputs: a length mismatch is the fatal
incorrect-input-length error; otherwise, if any input violates its limit the
combined multierr of per-joint out-of-bounds errors is returned (modelled by
the oob case); otherwise nil. -/
def validInputs (bf : BaseFrame) (inputs : List Input) : Option FrameErr :=
  if inputs.length ≠ bf.limits.length then
    some (.incorrectInputLength inputs.length bf.limits.length)
  else if ∃ i, i < bf.limits.length ∧
      outOfRange (bf.limits.getD i limDefault) (inputs.getD i inputDefault).value then
    some .oob
  else none

/-- The frame variants of the package as a closed sum: staticFrame,
tailGeometryStaticFrame (a static frame whose geometry is placed at the end of
the transform), translationalFrame, rotationalFrame, mobile2DFrame, and the
two wrappers noGeometryFrame and namedFrame which embed an inner frame. -/
inductive Frame where
  | static (bf : BaseFrame) (transform : Pose) (geometry : Option Geometry) : Frame
  | tailGeometryStatic (bf : BaseFrame) (transform : Pose) (geometry : Option Geometry) : Frame
  | translational (bf : BaseFrame) (transAxis : V3) (geometry : Option Geometry) : Frame
  | rotational (bf : BaseFrame) (rotAxis : V3) : Frame
  | mobile2D (bf : BaseFrame) (geometry : Option Geometry) : Frame
  | noGeometry (inner : Frame) : Frame
  | named (inner : Frame) (name : String) : Frame

/-- Name of a frame: the base name for the concrete variants, the overriding
name for namedFrame, and the embedded frame name for noGeometryFrame. -/
def Frame.name : Frame → String
  | .static bf _ _ => bf.name
  | .tailGeometryStatic bf _ _ => bf.name
  | .translational bf _ _ => bf.name
  | .rotational bf _ => bf.name
  | .mobile2D bf _ => bf.name
  | .noGeometry f => f.name
  | .named _ n => n

/-- DoF of a frame: the limits of the base, delegated by the wrappers. -/
def Frame.dof : Frame → List Limit
  | .static bf _ _ => bf.limits
  | .tailGeometryStatic bf _ _ => bf.limits
  | .translational bf _ _ => bf.limits
  | .rotational bf _ => bf.limits
  | .mobile2D bf _ => bf.limits
  | .noGeometry f => f.dof
  | .named f _ => f.dof

/-- Gate used by the movable-frame Transform implementations: a validation
error that does not carry the out-of-bounds tag is fatal (nil pose), an
out-of-bounds error is returned alongside the computed pose. -/
def gateOOB (pose : Pose) : Option FrameErr → Option Pose × Option FrameErr
  | none => (some pose, none)
  | some e => if containsOOBErrString e then (some pose, some e) else (none, some e)

/-- Transform of each frame variant, following the source: static frames
demand an empty input vector and return the stored pose;
translational/rotational/mobile-2D frames validate inputs, tolerate
out-of-bounds values, and build the pose from the (possibly out-of-range)
input values; the wrappers delegate to the embedded frame. -/
def Frame.transform : Frame → List Input → Option Pose × Option FrameErr
  | .static _ pose _, inputs =>
      if inputs.length ≠ 0 then (none, some (.incorrectInputLength inputs.length 0))
      else (some pose, none)
  | .tailGeometryStatic _ pose _, inputs =>
      if inputs.length ≠ 0 then (none, some (.incorrectInputLength inputs.length 0))
      else (some pose, none)
  | .translational bf axis _, inputs =>
      gateOOB (newPoseFromPoint (axis.mul (inputs.getD 0 inputDefault).value))
        (validInputs bf inputs)
  | .rotational bf axis, inputs =>
      gateOOB (newPoseFromR4AA ⟨(inputs.getD 0 inputDefault).value, axis.x, axis.y, axis.z⟩)
        (validInputs bf inputs)
  | .mobile2D bf _, inputs =>
      gateOOB (newPoseFromPoint
          ⟨(inputs.getD 0 inputDefault).value, (inputs.getD 1 inputDefault).value, 0⟩)
        (validInputs bf inputs)
  | .noGeometry f, inputs => f.transform inputs
  | .named f _, inputs => f.transform inputs

/-- Geometries of each frame variant, following the source.  A static frame
with no attached geometry answers the empty record before any length check; a
static frame with geometry demands an empty input vector and places the
geometry at the zero pose (at the stored pose for the tail-geometry variant),
defaulting an empty label to the frame name.  Translational and mobile-2D
frames place their geometry at the pose computed by Transform, tolerating
out-of-bounds errors.  A rotational frame always answers the
not-implemented error.  The no-geometry wrapper always answers the empty
record; the named wrapper renames the embedded frame record. -/
def Frame.geometries : Frame → List Input → Option GeometriesInFrame × Option FrameErr
  | .static bf _ none, _ => (some ⟨bf.name, []⟩, none)
  | .static bf _ (some g), inputs =>
      if inputs.length ≠ 0 then (none, some (.incorrectInputLength inputs.length 0))
      else
        let ng := g.transform newZeroPose
        let ng2 := if ng.label = "" then ng.setLabel bf.name else ng
        (some ⟨bf.name, [ng2]⟩, none)
  | .tailGeometryStatic bf _ none, _ => (some ⟨bf.name, []⟩, none)
  | .tailGeometryStatic bf pose (some g), inputs =>
      if inputs.length ≠ 0 then (none, some (.incorrectInputLength inputs.length 0))
      else
        let ng := g.transform pose
        let ng2 := if ng.label = "" then ng.setLabel bf.name else ng
        (some ⟨bf.name, [ng2]⟩, none)
  | .translational bf _ none, _ => (some ⟨bf.name, []⟩, none)
  | .translational bf axis (some g), inputs =>
      match Frame.transform (.translational bf axis (some g)) inputs with
      | (none, e) => (none, e)
      | (some p, none) => (some ⟨bf.name, [g.transform p]⟩, none)
      | (some p, some e) =>
          if containsOOBErrString e then (some ⟨bf.name, [g.transform p]⟩, some e)
          else (none, some e)
  | .rotational _ _, _ => (none, some .geometriesNotImplemented)
  | .mobile2D bf none, _ => (some ⟨bf.name, []⟩, none)
  | .mobile2D bf (some g), inputs =>
      match Frame.transform (.mobile2D bf (some g)) inputs with
      | (none, e) => (none, e)
      | (some p, none) => (some ⟨bf.name, [g.transform p]⟩, none)
      | (some p, some e) =>
          if containsOOBErrString e then (some ⟨bf.name, [g.transform p]⟩, some e)
          else (none, some e)
  | .noGeometry f, _ => (some ⟨f.name, []⟩, none)
  | .named f n, inputs =>
      match f.geometries inputs with
      | (_, some e) => (none, some e)
      | (some gif, none) => (some ⟨n, gif.geometries⟩, none)
      | (none, none) => (none, none)

/-- Helper for the static AlmostEquals receiver (also promoted to the
tail-geometry variant): the Go type assertion otherFrame.(*staticFrame)
succeeds only on the static variant itself. -/
def staticAlmostEquals (bf : BaseFrame) (pose : Pose) : Frame → Prop
  | .static bf2 pose2 _ => baseAlmostEquals bf bf2 ∧ poseAlmostEqual pose pose2
  | _ => False

/-- AlmostEquals of each variant, following the source: every concrete variant
type-asserts the other frame to its own concrete type and compares the base
fields plus its variant fields — except mobile2DFrame, whose source asserts
the other frame to *rotationalFrame* and compares only the base fields.  The
wrappers do not override AlmostEquals, so the embedded frame method runs. -/
def Frame.almostEquals : Frame → Frame → Prop
  | .static bf pose _, other => staticAlmostEquals bf pose other
  | .tailGeometryStatic bf pose _, other => staticAlmostEquals bf pose other
  | .translational bf axis _, other =>
      match other with
      | .translational bf2 axis2 _ =>
          baseAlmostEquals bf bf2 ∧ r3VectorAlmostEqual axis axis2 1e-8
      | _ => False
  | .rotational bf axis, other =>
      match other with
      | .rotational bf2 axis2 =>
          baseAlmostEquals bf bf2 ∧ r3VectorAlmostEqual axis axis2 1e-8
      | _ => False
  | .mobile2D bf _, other =>
      match other with
      | .rotational bf2 _ => baseAlmostEquals bf bf2
      | _ => False
  | .noGeometry f, other => f.almostEquals other
  | .named f _, other => f.almostEquals other

/-- NewNamedFrame returns a frame with a new name that otherwise passes
through all functions of the original frame. -/
def NewNamedFrame (f : Frame) (n : String) : Frame := .named f n

/-- NewStaticFrame: rejects a nil pose, gives zero DoF. -/
def NewStaticFrame (name : String) (pose : Option Pose) : Except FrameErr Frame :=
  match pose with
  | none => .error .nilPose
  | some p => .ok (.static ⟨name, []⟩ p none)

/-- NewStaticFrameWithGeometry: rejects a nil pose, attaches the geometry. -/
def NewStaticFrameWithGeometry (name : String) (pose : Option Pose)
    (geometry : Option Geometry) : Except FrameErr Frame :=
  match pose with
  | none => .error .nilPose
  | some p => .ok (.static ⟨name, []⟩ p geometry)

/-- NewTranslationalFrameWithGeometry: rejects an axis whose components are
all within 1e-8 of zero, stores the normalised axis and one limit. -/
def NewTranslationalFrameWithGeometry (name : String) (axis : V3) (limit : Limit)
    (geometry : Option Geometry) : Except FrameErr Frame :=
  if r3VectorAlmostEqual v3zero axis 1e-8 then .error .zeroTranslationAxis
  else .ok (.translational ⟨name, [limit]⟩ axis.normalize geometry)

/-- NewTranslationalFrame delegates to NewTranslationalFrameWithGeometry with
no geometry. -/
def NewTranslationalFrame (name : String) (axis : V3) (limit : Limit) :
    Except FrameErr Frame :=
  NewTranslationalFrameWithGeometry name axis limit none

/-- NewRotationalFrame: normalises the axis and always succeeds — the source
has no error return for a zero axis. -/
def NewRotationalFrame (name : String) (axis : R4AA) (limit : Limit) :
    Except FrameErr Frame :=
  .ok (.rotational ⟨name, [limit]⟩
        ⟨axis.normalize.rx, axis.normalize.ry, axis.normalize.rz⟩)

/-- NewMobile2DFrame: accepts exactly two limits. -/
def NewMobile2DFrame (name : String) (limits : List Limit)
    (geometry : Option Geometry) : Except FrameErr Frame :=
  if limits.length ≠ 2 then .error (.wrongMobileDim limits.length)
  else .ok (.mobile2D ⟨name, limits⟩ geometry)

/-- Result is a successfully constructed frame (the Go call returned a nil
error). -/
def isOkFrame : Except FrameErr Frame → Prop
  | .ok _ => True
  | .error _ => False

/-- Same frame with every limit replaced by the unrestricted limit
(-infinity, +infinity); an unrestricted transform never reports an
out-of-bounds error. -/
def unrestrict : Frame → Frame
  | .static bf p g => .static ⟨bf.name, bf.limits.map fun _ => ⟨.ninf, .pinf⟩⟩ p g
  | .tailGeometryStatic bf p g =>
      .tailGeometryStatic ⟨bf.name, bf.limits.map fun _ => ⟨.ninf, .pinf⟩⟩ p g
  | .translational bf a g =>
      .translational ⟨bf.name, bf.limits.map fun _ => ⟨.ninf, .pinf⟩⟩ a g
  | .rotational bf a => .rotational ⟨bf.name, bf.limits.map fun _ => ⟨.ninf, .pinf⟩⟩ a
  | .mobile2D bf g => .mobile2D ⟨bf.name, bf.limits.map fun _ => ⟨.ninf, .pinf⟩⟩ g
  | .noGeometry f => .noGeometry (unrestrict f)
  | .named f n => .named (unrestrict f) n

/-- Effective lower bound for random sampling: the source replaces a
lower bound of -infinity by -999 before sampling.  A lower bound of +infinity
makes the Go float arithmetic produce NaN, which the real-number model cannot
represent; theorems exclude that case by hypothesis. -/
def sampleLo : FloatB → ℝ
  | .ninf => -999
  | .fin x => x
  | .pinf => 0

/-- Effective upper bound for random sampling: the source replaces an upper
bound of +infinity by 999 before sampling; an upper bound of -infinity is the
NaN case excluded by hypothesis. -/
def sampleHi : FloatB → ℝ
  | .ninf => 0
  | .fin x => x
  | .pinf => 999

/-- RandomFrameInputs produces one input per limit of the frame, the k-th
drawn as rand*(u-l)+l from the k-th value of the random stream (modelling the
successive calls rSeed.Float64(), each in [0,1)), with infinite bounds
replaced by plus/minus 999. -/
def RandomFrameInputs (m : Frame) (rand : Nat → ℝ) : List Input :=
  m.dof.enum.map fun p =>
    ⟨rand p.1 * (sampleHi p.2.max - sampleLo p.2.min) + sampleLo p.2.min⟩

/-- Joint type of a JointConfig. -/
inductive JointType where
  | revolute : JointType
  | prismatic : JointType

/-- LinkConfig record: id, translation, orientation, optional geometry.
Modelled from the spec: the orientation and geometry config fields carry the
value used at construction (the library emits the representation it was given
and accepts all of them). -/
structure LinkConfig where
  id : String
  translation : V3
  orient : Orient
  geometry : Option Geometry

/-- JointConfig record: id, type, axis, max and min bounds, optional
geometry. -/
structure JointConfig where
  id : String
  jtype : JointType
  axis : V3
  max : FloatB
  min : FloatB
  geometry : Option Geometry

/-- Serialised form of a frame: a link config or a joint config. -/
inductive FrameConfig where
  | link (cfg : LinkConfig) : FrameConfig
  | joint (cfg : JointConfig) : FrameConfig

/-- MarshalJSON of each variant, modelled at the record level: a static frame
serialises to a LinkConfig from its pose and geometry; a translational frame
with more than one limit is the high-DoF error and otherwise serialises to a
prismatic JointConfig with its bounds unconverted; a rotational frame
likewise serialises to a revolute JointConfig with its bounds converted to
degrees; mobile2DFrame.MarshalJSON is the not-implemented error.  The
wrappers do not override MarshalJSON, so the embedded frame serialises. -/
def marshalFrame : Frame → Except FrameErr FrameConfig
  | .static bf pose geom => .ok (.link ⟨bf.name, pose.point, pose.orient, geom⟩)
  | .tailGeometryStatic bf pose geom => .ok (.link ⟨bf.name, pose.point, pose.orient, geom⟩)
  | .translational bf axis geom =>
      if 1 < bf.limits.length then .error .highDOF
      else .ok (.joint ⟨bf.name, .prismatic, axis,
        (bf.limits.getD 0 limDefault).max, (bf.limits.getD 0 limDefault).min, geom⟩)
  | .rotational bf axis =>
      if 1 < bf.limits.length then .error .highDOF
      else .ok (.joint ⟨bf.name, .revolute, axis,
        radToDeg (bf.limits.getD 0 limDefault).max,
        radToDeg (bf.limits.getD 0 limDefault).min, none⟩)
  | .mobile2D _ _ => .error .marshalNotImplemented
  | .noGeometry f => marshalFrame f
  | .named f _ => marshalFrame f

/-- Modelled from the spec: parsing a config builds the corresponding frame —
a LinkConfig becomes a static frame at the recorded pose, a revolute
JointConfig becomes a rotational frame with its bounds converted from degrees
to radians, a prismatic JointConfig becomes a translational frame with its
bounds unconverted (the parsing code is not in the source excerpt). -/
def parseFrameConfig : FrameConfig → Except FrameErr Frame
  | .link cfg =>
      NewStaticFrameWithGeometry cfg.id (some ⟨cfg.translation, cfg.orient⟩) cfg.geometry
  | .joint cfg =>
      match cfg.jtype with
      | .revolute =>
          NewRotationalFrame cfg.id ⟨0, cfg.axis.x, cfg.axis.y, cfg.axis.z⟩
            ⟨degToRad cfg.min, degToRad cfg.max⟩
      | .prismatic =>
          NewTranslationalFrame cfg.id cfg.axis ⟨cfg.min, cfg.max⟩

/-- Round trip of the claim: serialising succeeds and re-parsing the result
yields a frame AlmostEquals to the original. -/
def roundTripOK (f : Frame) : Prop :=
  match marshalFrame f with
  | .error _ => False
  | .ok cfg =>
      match parseFrameConfig cfg with
      | .error _ => False
      | .ok g => f.almostEquals g

/-! Helper lemmas shared by the claim theorems. -/

lemma norm2_nonneg (v : V3) : 0 ≤ v.norm2 :=
  add_nonneg (add_nonneg (mul_self_nonneg v.x) (mul_self_nonneg v.y)) (mul_self_nonneg v.z)

lemma norm2_mul (v : V3) (m : ℝ) : (v.mul m).norm2 = m * m * v.norm2 := by
  unfold V3.mul V3.norm2; ring

lemma norm2_pos_of_not_almostZero {v : V3}
    (h : ¬ r3VectorAlmostEqual v3zero v 1e-8) : 0 < v.norm2 := by
  rcases lt_or_eq_of_le (norm2_nonneg v) with hpos | heq
  · exact hpos
  · exfalso
    have heq2 : v.x * v.x + v.y * v.y + v.z * v.z = 0 := heq.symm
    have hx : v.x = 0 := mul_self_eq_zero.mp (le_antisymm
      (by nlinarith [mul_self_nonneg v.x, mul_self_nonneg v.y, mul_self_nonneg v.z])
      (mul_self_nonneg _))
    have hy : v.y = 0 := mul_self_eq_zero.mp (le_antisymm
      (by nlinarith [mul_self_nonneg v.x, mul_self_nonneg v.y, mul_self_nonneg v.z])
      (mul_self_nonneg _))
    have hz : v.z = 0 := mul_self_eq_zero.mp (le_antisymm
      (by nlinarith [mul_self_nonneg v.x, mul_self_nonneg v.y, mul_self_nonneg v.z])
      (mul_self_nonneg _))
    exact h (by norm_num [r3VectorAlmostEqual, v3zero, hx, hy, hz])

lemma norm2_normalize {v : V3} (h : 0 < v.norm2) : v.normalize.norm2 = 1 := by
  have hne : v.norm2 ≠ 0 := ne_of_gt h
  have hs : Real.sqrt v.norm2 * Real.sqrt v.norm2 = v.norm2 := Real.mul_self_sqrt (le_of_lt h)
  unfold V3.normalize
  rw [if_neg hne, norm2_mul, one_div_mul_one_div, hs, one_div_mul_cancel hne]

lemma norm_eq_one_of_norm2 {v : V3} (h : v.norm2 = 1) : v.norm = 1 := by
  unfold V3.norm; rw [h]; exact Real.sqrt_one

lemma normalize_of_norm2_one {v : V3} (h : v.norm2 = 1) : v.normalize = v := by
  unfold V3.normalize
  rw [if_neg (by rw [h]; norm_num), h, Real.sqrt_one]
  cases v with
  | mk x y z => simp [V3.mul]

lemma not_almostZero_of_norm2_one {v : V3} (h : v.norm2 = 1) :
    ¬ r3VectorAlmostEqual v3zero v 1e-8 := by
  intro hc
  obtain ⟨hx, hy, hz⟩ := hc
  simp only [v3zero, zero_sub, abs_neg] at hx hy hz
  have hx2 : v.x * v.x < 1e-8 * 1e-8 := by
    rw [← abs_mul_abs_self]
    exact mul_lt_mul'' hx hx (abs_nonneg _) (abs_nonneg _)
  have hy2 : v.y * v.y < 1e-8 * 1e-8 := by
    rw [← abs_mul_abs_self]
    exact mul_lt_mul'' hy hy (abs_nonneg _) (abs_nonneg _)
  have hz2 : v.z * v.z < 1e-8 * 1e-8 := by
    rw [← abs_mul_abs_self]
    exact mul_lt_mul'' hz hz (abs_nonneg _) (abs_nonneg _)
  have hn : v.norm2 = v.x * v.x + v.y * v.y + v.z * v.z := rfl
  rw [hn] at h
  nlinarith

lemma r4_normalize_norm2 {a : R4AA} (h : ¬(a.rx = 0 ∧ a.ry = 0 ∧ a.rz = 0)) :
    V3.norm2 ⟨a.normalize.rx, a.normalize.ry, a.normalize.rz⟩ = 1 := by
  have hs : 0 < a.rx * a.rx + a.ry * a.ry + a.rz * a.rz := by
    rcases lt_or_eq_of_le (add_nonneg (add_nonneg (mul_self_nonneg a.rx)
        (mul_self_nonneg a.ry)) (mul_self_nonneg a.rz)) with hpos | heq
    · exact hpos
    · exfalso
      have heq2 : a.rx * a.rx + a.ry * a.ry + a.rz * a.rz = 0 := heq.symm
      refine h ⟨?_, ?_, ?_⟩ <;>
        exact mul_self_eq_zero.mp (le_antisymm
          (by nlinarith [mul_self_nonneg a.rx, mul_self_nonneg a.ry, mul_self_nonneg a.rz])
          (mul_self_nonneg _))
  have hsq : Real.sqrt (a.rx * a.rx + a.ry * a.ry + a.rz * a.rz) *
      Real.sqrt (a.rx * a.rx + a.ry * a.ry + a.rz * a.rz) =
      a.rx * a.rx + a.ry * a.ry + a.rz * a.rz := Real.mul_self_sqrt (le_of_lt hs)
  unfold R4AA.normalize V3.norm2
  rw [div_mul_div_comm, div_mul_div_comm, div_mul_div_comm, hsq,
    div_add_div_same, div_add_div_same, div_self (ne_of_gt hs)]

lemma r4_normalize_of_unit {u : V3} (h : u.norm2 = 1) (t : ℝ) :
    R4AA.normalize ⟨t, u.x, u.y, u.z⟩ = ⟨t, u.x, u.y, u.z⟩ := by
  have hn : u.x * u.x + u.y * u.y + u.z * u.z = 1 := h
  unfold R4AA.normalize
  simp only [hn, Real.sqrt_one, div_one]

lemma limitsAlmostEqual_nil : limitsAlmostEqual [] [] := by
  exact ⟨rfl, fun i hi => absurd hi (Nat.not_lt_zero i)⟩

lemma limitsAlmostEqual_single {l1 l2 : Limit}
    (h1 : float64AlmostEqual l1.min l2.min 1e-5)
    (h2 : float64AlmostEqual l1.max l2.max 1e-5) :
    limitsAlmostEqual [l1] [l2] := by
  refine ⟨rfl, fun i hi => ?_⟩
  simp only [List.length_cons, List.length_nil] at hi
  interval_cases i
  simpa [List.getD] using ⟨h1, h2⟩

lemma float64AlmostEqual_fin_refl (x : ℝ) :
    float64AlmostEqual (.fin x) (.fin x) 1e-5 := by
  show |x - x| < 1e-5
  rw [sub_self, abs_zero]; norm_num

lemma orientAlmostEqual_refl (o : Orient) : orientAlmostEqual o o := by
  cases o with
  | ident => trivial
  | r4aa t x y z =>
      refine ⟨?_, ?_, ?_, ?_⟩ <;> (rw [sub_self, abs_zero]; norm_num)

lemma r3VectorAlmostEqual_refl (v : V3) (eps : ℝ) (h : 0 < eps) :
    r3VectorAlmostEqual v v eps := by
  refine ⟨?_, ?_, ?_⟩ <;> (rw [sub_self, abs_zero]; exact h)

lemma poseAlmostEqual_refl (p : Pose) : poseAlmostEqual p p :=
  ⟨r3VectorAlmostEqual_refl p.point 1e-8 (by norm_num), orientAlmostEqual_refl p.orient⟩

lemma validInputs_len {bf : BaseFrame} {inputs : List Input}
    (h : inputs.length ≠ bf.limits.length) :
    validInputs bf inputs =
      some (.incorrectInputLength inputs.length bf.limits.length) := by
  unfold validInputs; rw [if_pos h]

lemma validInputs_single (name : String) (lim : Limit) (d : ℝ) :
    validInputs ⟨name, [lim]⟩ [⟨d⟩] =
      if outOfRange lim d then some FrameErr.oob else none := by
  unfold validInputs
  simp [Nat.lt_one_iff]

lemma validInputs_pair (name : String) (l1 l2 : Limit) (d1 d2 : ℝ) :
    validInputs ⟨name, [l1, l2]⟩ [⟨d1⟩, ⟨d2⟩] =
      if outOfRange l1 d1 ∨ outOfRange l2 d2 then some FrameErr.oob else none := by
  unfold validInputs
  simp only [List.length_cons, List.length_nil, ne_eq, not_true_eq_false,
    if_false, reduceIte]
  by_cases h : outOfRange l1 d1 ∨ outOfRange l2 d2
  · rw [if_pos h, if_pos]
    rcases h with h1 | h2
    · exact ⟨0, by norm_num, by simpa [List.getD] using h1⟩
    · exact ⟨1, by norm_num, by simpa [List.getD] using h2⟩
  · rw [if_neg h, if_neg]
    rintro ⟨i, hi, hout⟩
    interval_cases i
    · exact h (Or.inl (by simpa [List.getD] using hout))
    · exact h (Or.inr (by simpa [List.getD] using hout))

lemma gateOOB_fst {pose : Pose} {e : Option FrameErr}
    (he : e = none ∨ e = some .oob) : (gateOOB pose e).1 = some pose := by
  rcases he with h | h <;> subst h <;> simp [gateOOB, containsOOBErrString]

lemma validInputs_none_or_oob {bf : BaseFrame} {inputs : List Input}
    (h : inputs.length = bf.limits.length) :
    validInputs bf inputs = none ∨ validInputs bf inputs = some .oob := by
  unfold validInputs
  rw [if_neg (by omega)]
  by_cases hc : ∃ i, i < bf.limits.length ∧
      outOfRange (bf.limits.getD i limDefault) (inputs.getD i inputDefault).value
  · right; rw [if_pos hc]
  · left; rw [if_neg hc]

lemma newTranslationalWG_ok {name : String} {axis : V3} {lim : Limit}
    {geom : Option Geometry} {f : Frame}
    (h : NewTranslationalFrameWithGeometry name axis lim geom = .ok f) :
    ¬ r3VectorAlmostEqual v3zero axis 1e-8 ∧
    f = .translational ⟨name, [lim]⟩ axis.normalize geom := by
  by_cases hc : r3VectorAlmostEqual v3zero axis 1e-8
  · rw [NewTranslationalFrameWithGeometry, if_pos hc] at h
    exact absurd h (by simp)
  · rw [NewTranslationalFrameWithGeometry, if_neg hc] at h
    exact ⟨hc, (Except.ok.inj h).symm⟩

lemma newRotational_ok {name : String} {ax : R4AA} {lim : Limit} {f : Frame}
    (h : NewRotationalFrame name ax lim = .ok f) :
    f = .rotational ⟨name, [lim]⟩ ⟨ax.normalize.rx, ax.normalize.ry, ax.normalize.rz⟩ := by
  rw [NewRotationalFrame] at h
  exact (Except.ok.inj h).symm

lemma newMobile2D_ok {name : String} {limits : List Limit}
    {geom : Option Geometry} {f : Frame}
    (h : NewMobile2DFrame name limits geom = .ok f) :
    limits.length = 2 ∧ f = .mobile2D ⟨name, limits⟩ geom := by
  by_cases hc : limits.length ≠ 2
  · rw [NewMobile2DFrame, if_pos hc] at h
    exact absurd h (by simp)
  · push_neg at hc
    rw [NewMobile2DFrame, if_neg (by omega)] at h
    exact ⟨hc, (Except.ok.inj h).symm⟩

lemma newStaticWG_ok {name : String} {p : Pose} {geom : Option Geometry} {f : Frame}
    (h : NewStaticFrameWithGeometry name (some p) geom = .ok f) :
    f = .static ⟨name, []⟩ p geom := by
  exact (Except.ok.inj h).symm

/-! Concrete names and limits used to instantiate the claim theorems. -/

def nmA : String := "axisFrame"

def nmJ : String := "jointFrame"

def nmM : String := "mobileFrame"

def nmB : String := "outerName"

def lim01 : Limit := ⟨.fin 0, .fin 1⟩

lemma limitsAlmostEqual_two {l1 l2 m1 m2 : Limit}
    (h1 : float64AlmostEqual l1.min m1.min 1e-5)
    (h2 : float64AlmostEqual l1.max m1.max 1e-5)
    (h3 : float64AlmostEqual l2.min m2.min 1e-5)
    (h4 : float64AlmostEqual l2.max m2.max 1e-5) :
    limitsAlmostEqual [l1, l2] [m1, m2] := by
  refine ⟨rfl, fun i hi => ?_⟩
  simp only [List.length_cons, List.length_nil] at hi
  interval_cases i
  · simpa [List.getD] using ⟨h1, h2⟩
  · simpa [List.getD] using ⟨h3, h4⟩

/-- C1: on the source, AlmostEquals of a mobile-2D frame casts the other
frame to the rotational variant, so a mobile-2D frame is not AlmostEquals to
an identical mobile-2D frame, while it is AlmostEquals to a rotational frame
with the same name and limits — both directly contradicting the claim. -/
theorem C1_mobile2D_almostEquals_cex :
    ¬ Frame.almostEquals (.mobile2D ⟨nmM, [lim01, lim01]⟩ none)
        (.mobile2D ⟨nmM, [lim01, lim01]⟩ none) ∧
    Frame.almostEquals (.mobile2D ⟨nmM, [lim01, lim01]⟩ none)
        (.rotational ⟨nmM, [lim01, lim01]⟩ ⟨0, 0, 1⟩) := by
  constructor
  · simp [Frame.almostEquals]
  · show baseAlmostEquals ⟨nmM, [lim01, lim01]⟩ ⟨nmM, [lim01, lim01]⟩
    exact ⟨rfl, limitsAlmostEqual_two (float64AlmostEqual_fin_refl 0)
      (float64AlmostEqual_fin_refl 1) (float64AlmostEqual_fin_refl 0)
      (float64AlmostEqual_fin_refl 1)⟩

/-- C3: on the source, Geometries of a rotational frame answers the fatal
not-implemented error even for a valid length-1 in-bounds input (here 1/2
within the limit [0,1]), although its doc comment promises (nil, nil) and the
spec promises an empty geometry list. -/
theorem C3_rotational_geometries_cex :
    validInputs ⟨nmJ, [lim01]⟩ [⟨1/2⟩] = none ∧
    Frame.geometries (.rotational ⟨nmJ, [lim01]⟩ ⟨0, 0, 1⟩) [⟨1/2⟩] =
      (none, some FrameErr.geometriesNotImplemented) := by
  constructor
  · rw [validInputs_single, if_neg]
    norm_num [outOfRange, lim01, realLtB, bLtReal]
  · simp [Frame.geometries]

/-- C4 counterexample: NewRotationalFrame accepts the zero axis and returns a
frame with a nil error, contradicting the claim that the rotational
constructor rejects a zero-length axis with an error. -/
theorem C4_rotational_zero_axis_accepted_cex :
    isOkFrame (NewRotationalFrame nmJ ⟨0, 0, 0, 0⟩ lim01) := by
  rw [NewRotationalFrame]
  trivial

/-- C4 (amended): the translational constructors reject an axis whose
components all lie within 1e-8 of zero (in particular the zero axis) and
otherwise store the axis normalised to unit length; NewRotationalFrame never
returns an error — it stores the normalised axis, which has unit length
whenever the given axis is nonzero. -/
theorem C4_constructor_axis_normalisation :
    (∀ (name : String) (axis : V3) (lim : Limit) (geom : Option Geometry),
      r3VectorAlmostEqual v3zero axis 1e-8 →
        NewTranslationalFrameWithGeometry name axis lim geom =
          .error .zeroTranslationAxis ∧
        NewTranslationalFrame name axis lim = .error .zeroTranslationAxis) ∧
    (∀ (name : String) (axis : V3) (lim : Limit) (geom : Option Geometry),
      ¬ r3VectorAlmostEqual v3zero axis 1e-8 →
        NewTranslationalFrameWithGeometry name axis lim geom =
          .ok (.translational ⟨name, [lim]⟩ axis.normalize geom) ∧
        axis.normalize.norm = 1) ∧
    (∀ (name : String) (ax : R4AA) (lim : Limit),
      NewRotationalFrame name ax lim =
        .ok (.rotational ⟨name, [lim]⟩
          ⟨ax.normalize.rx, ax.normalize.ry, ax.normalize.rz⟩) ∧
      (¬(ax.rx = 0 ∧ ax.ry = 0 ∧ ax.rz = 0) →
        V3.norm ⟨ax.normalize.rx, ax.normalize.ry, ax.normalize.rz⟩ = 1)) := by
  refine ⟨?_, ?_, ?_⟩
  · intro name axis lim geom h
    constructor
    · rw [NewTranslationalFrameWithGeometry, if_pos h]
    · rw [NewTranslationalFrame, NewTranslationalFrameWithGeometry, if_pos h]
  · intro name axis lim geom h
    refine ⟨?_, ?_⟩
    · rw [NewTranslationalFrameWithGeometry, if_neg h]
    · exact norm_eq_one_of_norm2 (norm2_normalize (norm2_pos_of_not_almostZero h))
  · intro name ax lim
    exact ⟨rfl, fun h => norm_eq_one_of_norm2 (r4_normalize_norm2 h)⟩

/-- C4 witness: the amended constructor facts evaluated at the zero axis, at
the axis (3,0,0) and at the rotational axis (0,0,2). -/
theorem C4_constructor_axis_normalisation_w :
    NewTranslationalFrame nmA v3zero lim01 = .error .zeroTranslationAxis ∧
    NewTranslationalFrameWithGeometry nmA ⟨3, 0, 0⟩ lim01 none =
      .ok (.translational ⟨nmA, [lim01]⟩ (V3.normalize ⟨3, 0, 0⟩) none) ∧
    (V3.normalize ⟨3, 0, 0⟩).norm = 1 ∧
    V3.norm ⟨(R4AA.normalize ⟨0, 0, 0, 2⟩).rx, (R4AA.normalize ⟨0, 0, 0, 2⟩).ry,
      (R4AA.normalize ⟨0, 0, 0, 2⟩).rz⟩ = 1 := by
  have hz : r3VectorAlmostEqual v3zero v3zero 1e-8 := by
    norm_num [r3VectorAlmostEqual, v3zero, abs_sub_lt_iff]
  have hax : ¬ r3VectorAlmostEqual v3zero ⟨3, 0, 0⟩ 1e-8 := by
    norm_num [r3VectorAlmostEqual, v3zero, abs_sub_lt_iff]
  exact ⟨(C4_constructor_axis_normalisation.1 nmA v3zero lim01 none hz).2,
    (C4_constructor_axis_normalisation.2.1 nmA ⟨3, 0, 0⟩ lim01 none hax).1,
    (C4_constructor_axis_normalisation.2.1 nmA ⟨3, 0, 0⟩ lim01 none hax).2,
    (C4_constructor_axis_normalisation.2.2 nmJ ⟨0, 0, 0, 2⟩ lim01).2 (by norm_num)⟩

/-- C6: Transform of a constructed translational frame with any length-1
input of value d yields a pose translated by d times the stored unit axis
with the identity orientation (the error component, possibly an out-of-bounds
tag, does not affect the pose). -/
theorem C6_translational_transform_pose :
    ∀ (name : String) (axis : V3) (lim : Limit) (geom : Option Geometry)
      (f : Frame) (d : ℝ),
      NewTranslationalFrameWithGeometry name axis lim geom = .ok f →
      (f.transform [⟨d⟩]).1 = some ⟨axis.normalize.mul d, Orient.ident⟩ := by
  intro name axis lim geom f d h
  obtain ⟨-, rfl⟩ := newTranslationalWG_ok h
  have hv := @validInputs_none_or_oob ⟨name, [lim]⟩ [⟨d⟩] rfl
  simp only [Frame.transform]
  exact gateOOB_fst hv

/-- C6 witness: the translational frame on axis (0,3,0) at input 2 translates
to (0,2,0) with identity orientation. -/
theorem C6_translational_transform_pose_w :
    ((Frame.translational ⟨nmA, [lim01]⟩ (V3.normalize ⟨0, 3, 0⟩) none).transform
      [⟨2⟩]).1 = some ⟨⟨0, 2, 0⟩, Orient.ident⟩ := by
  have hax : ¬ r3VectorAlmostEqual v3zero ⟨0, 3, 0⟩ 1e-8 := by
    norm_num [r3VectorAlmostEqual, v3zero, abs_sub_lt_iff]
  have hctor : NewTranslationalFrameWithGeometry nmA ⟨0, 3, 0⟩ lim01 none =
      .ok (.translational ⟨nmA, [lim01]⟩ (V3.normalize ⟨0, 3, 0⟩) none) := by
    rw [NewTranslationalFrameWithGeometry, if_neg hax]
  have h := C6_translational_transform_pose nmA ⟨0, 3, 0⟩ lim01 none _ 2 hctor
  rw [h]
  have h9 : Real.sqrt (9 : ℝ) = 3 := by
    rw [show (9 : ℝ) = 3 ^ 2 by norm_num, Real.sqrt_sq (by norm_num : (0:ℝ) ≤ 3)]
  norm_num [V3.normalize, V3.norm2, V3.mul, h9]

/-- C7: Geometries of the no-geometry wrapper is the empty record under the
inner frame name with a nil error, whatever the inner frame and inputs are. -/
theorem C7_noGeometry_wrapper_empty :
    ∀ (f : Frame) (inputs : List Input),
      (Frame.noGeometry f).geometries inputs = (some ⟨f.name, []⟩, none) := by
  intro f inputs
  simp [Frame.geometries]

/-- C9: the named wrapper delegates AlmostEquals unchanged to the inner
frame (so the overriding name never affects equality), reports the overriding
name, and re-expresses the inner geometries under the overriding name. -/
theorem C9_named_wrapper_delegation :
    ∀ (f g : Frame) (n : String) (inputs : List Input),
      ((NewNamedFrame f n).almostEquals g ↔ f.almostEquals g) ∧
      (NewNamedFrame f n).name = n ∧
      ∀ gif : GeometriesInFrame, f.geometries inputs = (some gif, none) →
        (NewNamedFrame f n).geometries inputs = (some ⟨n, gif.geometries⟩, none) := by
  intro f g n inputs
  refine ⟨by simp [NewNamedFrame, Frame.almostEquals], rfl, fun gif h => ?_⟩
  simp [NewNamedFrame, Frame.geometries, h]

/-- C9 witness: renaming a no-geometry wrapper reports the overriding name
and its empty geometries re-expressed under that name. -/
theorem C9_named_wrapper_delegation_w :
    (NewNamedFrame (Frame.noGeometry (Frame.static ⟨nmJ, []⟩ newZeroPose none))
      nmB).name = nmB ∧
    (NewNamedFrame (Frame.noGeometry (Frame.static ⟨nmJ, []⟩ newZeroPose none))
      nmB).geometries [] = (some ⟨nmB, []⟩, none) := by
  have h := C9_named_wrapper_delegation
    (Frame.noGeometry (Frame.static ⟨nmJ, []⟩ newZeroPose none))
    (Frame.static ⟨nmJ, []⟩ newZeroPose none) nmB []
  exact ⟨h.2.1, h.2.2 ⟨nmJ, []⟩ (by simp [Frame.geometries, Frame.name])⟩

/-- C10: a static frame (and the tail-geometry variant) without attached
geometry answers the empty geometry record with a nil error for every input
vector, because the nil-geometry check precedes the length check, even though
Transform fails fatally on the same nonzero-length inputs. -/
theorem C10_static_geometries_before_length_check :
    ∀ (bf : BaseFrame) (pose : Pose) (inputs : List Input),
      (Frame.static bf pose none).geometries inputs = (some ⟨bf.name, []⟩, none) ∧
      (Frame.tailGeometryStatic bf pose none).geometries inputs =
        (some ⟨bf.name, []⟩, none) ∧
      (inputs.length ≠ 0 →
        (Frame.static bf pose none).transform inputs =
          (none, some (.incorrectInputLength inputs.length 0)) ∧
        (Frame.tailGeometryStatic bf pose none).transform inputs =
          (none, some (.incorrectInputLength inputs.length 0))) := by
  intro bf pose inputs
  refine ⟨by simp [Frame.geometries], by simp [Frame.geometries], fun h => ⟨?_, ?_⟩⟩ <;>
    (simp only [Frame.transform]; rw [if_pos h])

/-- C10 witness: at the one-element input vector the geometry record is empty
with a nil error while Transform answers the fatal length error. -/
theorem C10_static_geometries_before_length_check_w :
    (Frame.static ⟨nmA, []⟩ newZeroPose none).geometries [⟨1⟩] =
      (some ⟨nmA, []⟩, none) ∧
    (Frame.static ⟨nmA, []⟩ newZeroPose none).transform [⟨1⟩] =
      (none, some (.incorrectInputLength 1 0)) := by
  have h := C10_static_geometries_before_length_check ⟨nmA, []⟩ newZeroPose [⟨1⟩]
  exact ⟨h.1, (h.2.2 (by norm_num)).1⟩

lemma transform_translational_eval (name : String) (lim : Limit) (axis : V3)
    (geom : Option Geometry) (d : ℝ) :
    Frame.transform (.translational ⟨name, [lim]⟩ axis geom) [⟨d⟩] =
      if outOfRange lim d
      then (some (newPoseFromPoint (axis.mul d)), some FrameErr.oob)
      else (some (newPoseFromPoint (axis.mul d)), none) := by
  simp only [Frame.transform, validInputs_single, List.getD_cons_zero]
  by_cases h : outOfRange lim d
  · rw [if_pos h, if_pos h]
    simp [gateOOB, containsOOBErrString]
  · rw [if_neg h, if_neg h]
    simp [gateOOB]

lemma transform_rotational_eval (name : String) (lim : Limit) (axis : V3) (d : ℝ) :
    Frame.transform (.rotational ⟨name, [lim]⟩ axis) [⟨d⟩] =
      if outOfRange lim d
      then (some (newPoseFromR4AA ⟨d, axis.x, axis.y, axis.z⟩), some FrameErr.oob)
      else (some (newPoseFromR4AA ⟨d, axis.x, axis.y, axis.z⟩), none) := by
  simp only [Frame.transform, validInputs_single, List.getD_cons_zero]
  by_cases h : outOfRange lim d
  · rw [if_pos h, if_pos h]
    simp [gateOOB, containsOOBErrString]
  · rw [if_neg h, if_neg h]
    simp [gateOOB]

lemma transform_mobile_eval (name : String) (l1 l2 : Limit) (geom : Option Geometry)
    (d1 d2 : ℝ) :
    Frame.transform (.mobile2D ⟨name, [l1, l2]⟩ geom) [⟨d1⟩, ⟨d2⟩] =
      if outOfRange l1 d1 ∨ outOfRange l2 d2
      then (some (newPoseFromPoint ⟨d1, d2, 0⟩), some FrameErr.oob)
      else (some (newPoseFromPoint ⟨d1, d2, 0⟩), none) := by
  simp only [Frame.transform, validInputs_pair, List.getD_cons_zero,
    List.getD_cons_succ]
  by_cases h : outOfRange l1 d1 ∨ outOfRange l2 d2
  · rw [if_pos h, if_pos h]
    simp [gateOOB, containsOOBErrString]
  · rw [if_neg h, if_neg h]
    simp [gateOOB]

lemma transform_len_translational (name : String) (lim : Limit) (axis : V3)
    (geom : Option Geometry) (inputs : List Input) (h : inputs.length ≠ 1) :
    Frame.transform (.translational ⟨name, [lim]⟩ axis geom) inputs =
      (none, some (.incorrectInputLength inputs.length 1)) := by
  simp only [Frame.transform]
  rw [validInputs_len (by simpa using h)]
  simp [gateOOB, containsOOBErrString]

lemma transform_len_rotational (name : String) (lim : Limit) (axis : V3)
    (inputs : List Input) (h : inputs.length ≠ 1) :
    Frame.transform (.rotational ⟨name, [lim]⟩ axis) inputs =
      (none, some (.incorrectInputLength inputs.length 1)) := by
  simp only [Frame.transform]
  rw [validInputs_len (by simpa using h)]
  simp [gateOOB, containsOOBErrString]

lemma transform_len_mobile (name : String) (l1 l2 : Limit) (geom : Option Geometry)
    (inputs : List Input) (h : inputs.length ≠ 2) :
    Frame.transform (.mobile2D ⟨name, [l1, l2]⟩ geom) inputs =
      (none, some (.incorrectInputLength inputs.length 2)) := by
  simp only [Frame.transform]
  rw [validInputs_len (by simpa using h)]
  simp [gateOOB, containsOOBErrString]

/-- C2: for the three movable variants, an input vector of the right length
whose values are out of the declared limits makes Transform return the very
pose the unrestricted transform computes from those values together with the
error tagged with the out-of-bounds string, while an input vector of the
wrong length yields a nil pose and a fatal (untagged) error. -/
theorem C2_transform_oob_tolerated_and_length_fatal :
    (∀ (name : String) (axis : V3) (lim : Limit) (geom : Option Geometry)
        (f : Frame) (d : ℝ),
      NewTranslationalFrameWithGeometry name axis lim geom = .ok f →
      outOfRange lim d →
      f.transform [⟨d⟩] =
        (some (newPoseFromPoint (axis.normalize.mul d)), some FrameErr.oob) ∧
      (f.transform [⟨d⟩]).1 = ((unrestrict f).transform [⟨d⟩]).1 ∧
      containsOOBErrString FrameErr.oob) ∧
    (∀ (name : String) (axis : V3) (lim : Limit) (geom : Option Geometry)
        (f : Frame) (inputs : List Input),
      NewTranslationalFrameWithGeometry name axis lim geom = .ok f →
      inputs.length ≠ 1 →
      f.transform inputs = (none, some (.incorrectInputLength inputs.length 1)) ∧
      ¬ containsOOBErrString (.incorrectInputLength inputs.length 1)) ∧
    (∀ (name : String) (ax : R4AA) (lim : Limit) (f : Frame) (d : ℝ),
      NewRotationalFrame name ax lim = .ok f →
      outOfRange lim d →
      f.transform [⟨d⟩] =
        (some (newPoseFromR4AA
          ⟨d, ax.normalize.rx, ax.normalize.ry, ax.normalize.rz⟩),
         some FrameErr.oob) ∧
      (f.transform [⟨d⟩]).1 = ((unrestrict f).transform [⟨d⟩]).1 ∧
      containsOOBErrString FrameErr.oob) ∧
    (∀ (name : String) (ax : R4AA) (lim : Limit) (f : Frame) (inputs : List Input),
      NewRotationalFrame name ax lim = .ok f →
      inputs.length ≠ 1 →
      f.transform inputs = (none, some (.incorrectInputLength inputs.length 1)) ∧
      ¬ containsOOBErrString (.incorrectInputLength inputs.length 1)) ∧
    (∀ (name : String) (l1 l2 : Limit) (geom : Option Geometry) (f : Frame)
        (d1 d2 : ℝ),
      NewMobile2DFrame name [l1, l2] geom = .ok f →
      outOfRange l1 d1 → outOfRange l2 d2 →
      f.transform [⟨d1⟩, ⟨d2⟩] =
        (some (newPoseFromPoint ⟨d1, d2, 0⟩), some FrameErr.oob) ∧
      (f.transform [⟨d1⟩, ⟨d2⟩]).1 = ((unrestrict f).transform [⟨d1⟩, ⟨d2⟩]).1 ∧
      containsOOBErrString FrameErr.oob) ∧
    (∀ (name : String) (l1 l2 : Limit) (geom : Option Geometry) (f : Frame)
        (inputs : List Input),
      NewMobile2DFrame name [l1, l2] geom = .ok f →
      inputs.length ≠ 2 →
      f.transform inputs = (none, some (.incorrectInputLength inputs.length 2)) ∧
      ¬ containsOOBErrString (.incorrectInputLength inputs.length 2)) := by
  refine ⟨?_, ?_, ?_, ?_, ?_, ?_⟩
  · intro name axis lim geom f d h hoob
    obtain ⟨-, rfl⟩ := newTranslationalWG_ok h
    refine ⟨by rw [transform_translational_eval, if_pos hoob], ?_, trivial⟩
    rw [transform_translational_eval, if_pos hoob]
    simp only [unrestrict, List.map_cons, List.map_nil]
    rw [transform_translational_eval,
      if_neg (by simp [outOfRange, realLtB, bLtReal])]
  · intro name axis lim geom f inputs h hlen
    obtain ⟨-, rfl⟩ := newTranslationalWG_ok h
    exact ⟨transform_len_translational name lim axis.normalize geom inputs hlen,
      fun hc => hc⟩
  · intro name ax lim f d h hoob
    obtain rfl := newRotational_ok h
    refine ⟨by rw [transform_rotational_eval, if_pos hoob], ?_, trivial⟩
    rw [transform_rotational_eval, if_pos hoob]
    simp only [unrestrict, List.map_cons, List.map_nil]
    rw [transform_rotational_eval,
      if_neg (by simp [outOfRange, realLtB, bLtReal])]
  · intro name ax lim f inputs h hlen
    obtain rfl := newRotational_ok h
    exact ⟨transform_len_rotational name lim _ inputs hlen, fun hc => hc⟩
  · intro name l1 l2 geom f d1 d2 h h1 h2
    obtain ⟨-, rfl⟩ := newMobile2D_ok h
    refine ⟨by rw [transform_mobile_eval, if_pos (Or.inl h1)], ?_, trivial⟩
    rw [transform_mobile_eval, if_pos (Or.inl h1)]
    simp only [unrestrict, List.map_cons, List.map_nil]
    rw [transform_mobile_eval,
      if_neg (by simp [outOfRange, realLtB, bLtReal])]
  · intro name l1 l2 geom f inputs h hlen
    obtain ⟨-, rfl⟩ := newMobile2D_ok h
    exact ⟨transform_len_mobile name l1 l2 geom inputs hlen, fun hc => hc⟩

/-- C2 witness: a translational frame with limits [0,1] at the out-of-range
input 15 returns the pose at 15 along its axis together with the tagged
out-of-bounds error, and at an empty input vector the fatal length error with
a nil pose. -/
theorem C2_transform_oob_tolerated_and_length_fatal_w :
    (Frame.translational ⟨nmA, [lim01]⟩ (V3.normalize ⟨1, 0, 0⟩) none).transform
        [⟨15⟩] =
      (some (newPoseFromPoint ((V3.normalize ⟨1, 0, 0⟩).mul 15)), some FrameErr.oob) ∧
    (Frame.translational ⟨nmA, [lim01]⟩ (V3.normalize ⟨1, 0, 0⟩) none).transform [] =
      (none, some (.incorrectInputLength 0 1)) := by
  have hax : ¬ r3VectorAlmostEqual v3zero ⟨1, 0, 0⟩ 1e-8 := by
    norm_num [r3VectorAlmostEqual, v3zero, abs_sub_lt_iff]
  have hctor : NewTranslationalFrameWithGeometry nmA ⟨1, 0, 0⟩ lim01 none =
      .ok (.translational ⟨nmA, [lim01]⟩ (V3.normalize ⟨1, 0, 0⟩) none) := by
    rw [NewTranslationalFrameWithGeometry, if_neg hax]
  have hoob : outOfRange lim01 15 := Or.inr (by norm_num [lim01, bLtReal])
  exact ⟨(C2_transform_oob_tolerated_and_length_fatal.1 nmA ⟨1, 0, 0⟩ lim01 none _
      15 hctor hoob).1,
    (C2_transform_oob_tolerated_and_length_fatal.2.1 nmA ⟨1, 0, 0⟩ lim01 none _
      [] hctor (by norm_num)).1⟩

/-- C5 counterexample: serialising a constructed mobile-2D frame does not
succeed — MarshalJSON answers the not-implemented error — so the round-trip
law fails for the mobile-2D variant. -/
theorem C5_mobile2D_marshal_cex :
    NewMobile2DFrame nmM [lim01, lim01] none =
      .ok (.mobile2D ⟨nmM, [lim01, lim01]⟩ none) ∧
    marshalFrame (.mobile2D ⟨nmM, [lim01, lim01]⟩ none) =
      .error .marshalNotImplemented := by
  constructor
  · rw [NewMobile2DFrame, if_neg (by simp)]
  · rfl

/-- C5 (amended): the round-trip law parse(serialize(f)) AlmostEquals f holds
for the static, translational and rotational variants — for the joint
variants under finite limits and a nonzero axis — while the mobile-2D variant
cannot be serialised at all. -/
theorem C5_roundtrip_static_translational_rotational :
    (∀ (name : String) (p : Pose) (geom : Option Geometry) (f : Frame),
      NewStaticFrameWithGeometry name (some p) geom = .ok f → roundTripOK f) ∧
    (∀ (name : String) (axis : V3) (lo hi : ℝ) (geom : Option Geometry) (f : Frame),
      ¬ r3VectorAlmostEqual v3zero axis 1e-8 →
      NewTranslationalFrameWithGeometry name axis ⟨.fin lo, .fin hi⟩ geom = .ok f →
      roundTripOK f) ∧
    (∀ (name : String) (ax : R4AA) (lo hi : ℝ) (f : Frame),
      ¬(ax.rx = 0 ∧ ax.ry = 0 ∧ ax.rz = 0) →
      NewRotationalFrame name ax ⟨.fin lo, .fin hi⟩ = .ok f →
      roundTripOK f) := by
  refine ⟨?_, ?_, ?_⟩
  · intro name p geom f h
    obtain rfl := newStaticWG_ok h
    have hm : marshalFrame (.static ⟨name, []⟩ p geom) =
        .ok (.link ⟨name, p.point, p.orient, geom⟩) := rfl
    have hp : parseFrameConfig (.link ⟨name, p.point, p.orient, geom⟩) =
        .ok (.static ⟨name, []⟩ ⟨p.point, p.orient⟩ geom) := rfl
    simp only [roundTripOK, hm, hp]
    exact ⟨⟨rfl, limitsAlmostEqual_nil⟩, poseAlmostEqual_refl p⟩
  · intro name axis lo hi geom f hax h
    obtain ⟨-, rfl⟩ := newTranslationalWG_ok h
    have hu : (V3.normalize axis).norm2 = 1 :=
      norm2_normalize (norm2_pos_of_not_almostZero hax)
    have hm : marshalFrame
        (.translational ⟨name, [⟨.fin lo, .fin hi⟩]⟩ axis.normalize geom) =
        .ok (.joint ⟨name, .prismatic, axis.normalize, .fin hi, .fin lo, geom⟩) := by
      norm_num [marshalFrame, List.getD]
    have hp : parseFrameConfig
        (.joint ⟨name, .prismatic, axis.normalize, .fin hi, .fin lo, geom⟩) =
        .ok (.translational ⟨name, [⟨.fin lo, .fin hi⟩]⟩ axis.normalize none) := by
      simp only [parseFrameConfig, NewTranslationalFrame,
        NewTranslationalFrameWithGeometry]
      rw [if_neg (not_almostZero_of_norm2_one hu), normalize_of_norm2_one hu]
    simp only [roundTripOK, hm, hp]
    exact ⟨⟨rfl, limitsAlmostEqual_single (float64AlmostEqual_fin_refl lo)
        (float64AlmostEqual_fin_refl hi)⟩,
      r3VectorAlmostEqual_refl _ 1e-8 (by norm_num)⟩
  · intro name ax lo hi f hnz h
    obtain rfl := newRotational_ok h
    have hu : V3.norm2 ⟨ax.normalize.rx, ax.normalize.ry, ax.normalize.rz⟩ = 1 :=
      r4_normalize_norm2 hnz
    have he1 : lo * 180 / Real.pi * Real.pi / 180 = lo := by
      field_simp
    have he2 : hi * 180 / Real.pi * Real.pi / 180 = hi := by
      field_simp
    have hm : marshalFrame (.rotational ⟨name, [⟨.fin lo, .fin hi⟩]⟩
        ⟨ax.normalize.rx, ax.normalize.ry, ax.normalize.rz⟩) =
        .ok (.joint ⟨name, .revolute,
          ⟨ax.normalize.rx, ax.normalize.ry, ax.normalize.rz⟩,
          .fin (hi * 180 / Real.pi), .fin (lo * 180 / Real.pi), none⟩) := by
      norm_num [marshalFrame, List.getD, radToDeg]
    have hp : parseFrameConfig (.joint ⟨name, .revolute,
        ⟨ax.normalize.rx, ax.normalize.ry, ax.normalize.rz⟩,
        .fin (hi * 180 / Real.pi), .fin (lo * 180 / Real.pi), none⟩) =
        .ok (.rotational ⟨name, [⟨.fin lo, .fin hi⟩]⟩
          ⟨ax.normalize.rx, ax.normalize.ry, ax.normalize.rz⟩) := by
      simp only [parseFrameConfig, NewRotationalFrame, degToRad]
      rw [he1, he2, r4_normalize_of_unit hu 0]
    simp only [roundTripOK, hm, hp]
    exact ⟨⟨rfl, limitsAlmostEqual_single (float64AlmostEqual_fin_refl lo)
        (float64AlmostEqual_fin_refl hi)⟩,
      r3VectorAlmostEqual_refl _ 1e-8 (by norm_num)⟩

/-- C5 witness: the round trip evaluated at a concrete static frame, at the
translational frame on axis (1,0,0) with limits [0,1], and at the rotational
frame on axis (0,0,2) with limits [0,1]. -/
theorem C5_roundtrip_static_translational_rotational_w :
    roundTripOK (Frame.static ⟨nmA, []⟩ ⟨⟨1, 2, 3⟩, Orient.ident⟩ none) ∧
    roundTripOK (Frame.translational ⟨nmA, [⟨.fin 0, .fin 1⟩]⟩
      (V3.normalize ⟨1, 0, 0⟩) none) ∧
    roundTripOK (Frame.rotational ⟨nmJ, [⟨.fin 0, .fin 1⟩]⟩
      ⟨(R4AA.normalize ⟨0, 0, 0, 2⟩).rx, (R4AA.normalize ⟨0, 0, 0, 2⟩).ry,
       (R4AA.normalize ⟨0, 0, 0, 2⟩).rz⟩) := by
  have hax : ¬ r3VectorAlmostEqual v3zero ⟨1, 0, 0⟩ 1e-8 := by
    norm_num [r3VectorAlmostEqual, v3zero, abs_sub_lt_iff]
  have hctor : NewTranslationalFrameWithGeometry nmA ⟨1, 0, 0⟩ ⟨.fin 0, .fin 1⟩ none =
      .ok (.translational ⟨nmA, [⟨.fin 0, .fin 1⟩]⟩ (V3.normalize ⟨1, 0, 0⟩) none) := by
    rw [NewTranslationalFrameWithGeometry, if_neg hax]
  exact ⟨C5_roundtrip_static_translational_rotational.1 nmA
      ⟨⟨1, 2, 3⟩, Orient.ident⟩ none _ rfl,
    C5_roundtrip_static_translational_rotational.2.1 nmA ⟨1, 0, 0⟩ 0 1 none _
      hax hctor,
    C5_roundtrip_static_translational_rotational.2.2 nmJ ⟨0, 0, 0, 2⟩ 0 1 _
      (by norm_num) rfl⟩

/-- C8: RandomFrameInputs returns one value per degree of freedom, each lying
within the limit range after infinite bounds are replaced by plus/minus 999 —
under the source contract that every drawn random number lies in [0,1) and
for limits whose effective range is nonempty (a +infinity lower bound or a
-infinity upper bound would make the Go float arithmetic produce NaN). -/
theorem C8_randomFrameInputs_in_bounds (m : Frame) (rand : Nat → ℝ)
    (hr : ∀ n, 0 ≤ rand n ∧ rand n < 1)
    (hl : ∀ lim ∈ m.dof, lim.min ≠ FloatB.pinf ∧ lim.max ≠ FloatB.ninf ∧
      sampleLo lim.min ≤ sampleHi lim.max) :
    (RandomFrameInputs m rand).length = m.dof.length ∧
    ∀ k, k < m.dof.length →
      sampleLo (m.dof.getD k limDefault).min ≤
        ((RandomFrameInputs m rand).getD k inputDefault).value ∧
      ((RandomFrameInputs m rand).getD k inputDefault).value ≤
        sampleHi (m.dof.getD k limDefault).max := by
  have hlen : (RandomFrameInputs m rand).length = m.dof.length := by
    simp [RandomFrameInputs]
  refine ⟨hlen, fun k hk => ?_⟩
  have hk2 : k < (RandomFrameInputs m rand).length := by rw [hlen]; exact hk
  have hkd : m.dof.getD k limDefault = m.dof[k] := List.getD_eq_getElem _ _ hk
  have hval : (RandomFrameInputs m rand).getD k inputDefault =
      ⟨rand k * (sampleHi (m.dof[k]).max - sampleLo (m.dof[k]).min) +
        sampleLo (m.dof[k]).min⟩ := by
    rw [List.getD_eq_getElem _ _ hk2]
    simp [RandomFrameInputs]
  obtain ⟨-, -, hlohi⟩ := hl (m.dof[k]) (List.getElem_mem hk)
  obtain ⟨hr0, hr1⟩ := hr k
  rw [hkd, hval]
  constructor
  · show sampleLo (m.dof[k]).min ≤
      rand k * (sampleHi (m.dof[k]).max - sampleLo (m.dof[k]).min) +
        sampleLo (m.dof[k]).min
    have hmn : 0 ≤ rand k * (sampleHi (m.dof[k]).max - sampleLo (m.dof[k]).min) :=
      mul_nonneg hr0 (by linarith)
    linarith
  · show rand k * (sampleHi (m.dof[k]).max - sampleLo (m.dof[k]).min) +
        sampleLo (m.dof[k]).min ≤ sampleHi (m.dof[k]).max
    have hmx : rand k * (sampleHi (m.dof[k]).max - sampleLo (m.dof[k]).min) ≤
        1 * (sampleHi (m.dof[k]).max - sampleLo (m.dof[k]).min) :=
      mul_le_mul_of_nonneg_right (le_of_lt hr1) (by linarith)
    linarith

/-- Constant random stream used by the C8 witness, standing for a generator
whose every draw is one half. -/
def randHalf : Nat → ℝ := fun _ => 1 / 2

/-- C8 witness: a mobile-2D frame with limits (-infinity,5) and (2,+infinity)
yields two sampled inputs, the first lying in [-999, 5]. -/
theorem C8_randomFrameInputs_in_bounds_w :
    (RandomFrameInputs
      (Frame.mobile2D ⟨nmM, [⟨.ninf, .fin 5⟩, ⟨.fin 2, .pinf⟩]⟩ none)
      randHalf).length = 2 ∧
    -999 ≤ ((RandomFrameInputs
      (Frame.mobile2D ⟨nmM, [⟨.ninf, .fin 5⟩, ⟨.fin 2, .pinf⟩]⟩ none)
      randHalf).getD 0 inputDefault).value ∧
    ((RandomFrameInputs
      (Frame.mobile2D ⟨nmM, [⟨.ninf, .fin 5⟩, ⟨.fin 2, .pinf⟩]⟩ none)
      randHalf).getD 0 inputDefault).value ≤ 5 := by
  have h := C8_randomFrameInputs_in_bounds
    (Frame.mobile2D ⟨nmM, [⟨.ninf, .fin 5⟩, ⟨.fin 2, .pinf⟩]⟩ none) randHalf
    (fun n => by norm_num [randHalf])
    (by
      intro lim hm
      simp only [Frame.dof, List.mem_cons, List.not_mem_nil, or_false] at hm
      rcases hm with rfl | rfl
      · exact ⟨fun hc => FloatB.noConfusion hc, fun hc => FloatB.noConfusion hc,
          by norm_num [sampleLo, sampleHi]⟩
      · exact ⟨fun hc => FloatB.noConfusion hc, fun hc => FloatB.noConfusion hc,
          by norm_num [sampleLo, sampleHi]⟩)
  refine ⟨by simpa [Frame.dof] using h.1, ?_, ?_⟩
  · have hb := (h.2 0 (by simp [Frame.dof])).1
    simpa [Frame.dof, List.getD, sampleLo] using hb
  · have hb := (h.2 0 (by simp [Frame.dof])).2
    simpa [Frame.dof, List.getD, sampleHi] using hb

end RF
